import Mathlib

/-!
Verification of the PublixDashboard ML service core
(src/ml_service/app/main.py, features.py, train.py).

Real numbers in the Python source (numpy float64) are embedded as ℚ;
calendar dates and timestamps are embedded as integers (days since
1970-01-01, and seconds since local midnight, respectively).
-/

/-! ## Configuration constants (main.py lines 47-50, env defaults) -/

def STORE_OPEN_HOUR : Int := 8

def STORE_CLOSE_HOUR : Int := 22

/-- main.py:49, env default "1.25". -/
def INTRADAY_WEIGHT_ACCEL : ℚ := 5 / 4

/-- main.py:50, env default "0.000001". -/
def INTRADAY_MIN_FRAC : ℚ := 1 / 1000000

/-! ## Time-of-day helper (main.py lines 288-299, `_day_fraction`)

`now` is the time of day in seconds since local midnight; the code builds
`start`/`end` by replacing the hour of `now`, i.e. `open_hour*3600` and
`close_hour*3600` seconds.  The divisor is `max(1.0, (end-start).total_seconds())`. -/

def dayFraction (now : ℚ) (openHour closeHour : Int) : ℚ :=
  let s : ℚ := (openHour : ℚ) * 3600
  let e : ℚ := (closeHour : ℚ) * 3600
  if now ≤ s then 0
  else if e ≤ now then 1
  else (now - s) / max 1 (e - s)

/-! ## Intraday blend (main.py lines 427-470, `ml_forecast_intraday`)

Per product: `extrapolated = partial_units / eff_frac`,
`w = min(1.0, max(0.0, frac * INTRADAY_WEIGHT_ACCEL))`,
`eod = (1-w) * model_pred + w * extrapolated`, then
`eod = max(eod, partial_units)`.  `observed` stands for the source's
`partial_units` column. -/

/-- main.py:428: `frac = max(0.0, min(1.0, float(frac)))`. -/
def clampFrac (f : ℚ) : ℚ := max 0 (min 1 f)

/-- main.py:468: the blend weight `w`. -/
def intradayW (frac accel : ℚ) : ℚ := min 1 (max 0 (frac * accel))

/-- main.py lines 429+467-469: the blended estimate before the observed floor.
`max frac minFrac` is `eff_frac` from line 429. -/
def preFloorEod (modelPred observed frac accel minFrac : ℚ) : ℚ :=
  let effFrac := max frac minFrac
  let extrapolated := observed / effFrac
  let w := intradayW frac accel
  (1 - w) * modelPred + w * extrapolated

/-- main.py:470: `eod_units = np.maximum(eod_units, partial_units)`. -/
def eodUnits (modelPred observed frac accel minFrac : ℚ) : ℚ :=
  max (preFloorEod modelPred observed frac accel minFrac) observed

/-- The blend as the spec in §4.5 words it: `w = clamp(day_fraction × ACCEL, 0, 1)`,
`effective_fraction = max(day_fraction, MIN_FRACTION)`,
`eod = (1 − w) × model_pred + w × (partial_units / effective_fraction)`. -/
def eodBlendSpec (modelPred observed frac accel minFrac : ℚ) : ℚ :=
  let w := max 0 (min 1 (frac * accel))
  let effectiveFraction := max frac minFrac
  (1 - w) * modelPred + w * (observed / effectiveFraction)

/-! ## C2 — feature column contract

features.py lines 42-71 define the canonical column lists shared by
training; train.py line 66 imports them and line 408 selects
`CAT_COLS + NUM_COLS` as the training matrix.  main.py lines 68-69 define
its own `NUM_COLS` used at inference by `_predict_sum_by_product`
(main.py:265, `expected = CAT_COLS + NUM_COLS`). -/

def features_CAT_COLS : List String := ["product_name"]

def NUM_COLS_CALENDAR : List String :=
  ["year", "month", "day", "dow", "doy", "is_weekend", "days_to_halloween"]

def NUM_COLS_DISCOUNT : List String :=
  ["has_active_discount", "discount_percent", "avg_discount_effectiveness"]

def NUM_COLS_BASKET : List String :=
  ["basket_association_count", "top_basket_confidence", "avg_basket_confidence"]

/-- features.py:71, the canonical numeric feature order. -/
def features_NUM_COLS : List String :=
  NUM_COLS_CALENDAR ++ NUM_COLS_DISCOUNT ++ NUM_COLS_BASKET

/-- main.py:68. -/
def main_CAT_COLS : List String := ["product_name"]

/-- main.py:69 — a separate, calendar-only list. -/
def main_NUM_COLS : List String :=
  ["year", "month", "day", "dow", "doy", "is_weekend", "days_to_halloween"]

/-- train.py:408: `X_train = train_df[CAT_COLS + NUM_COLS]` with the lists
imported from features.py. -/
def trainFeatureColumns : List String := features_CAT_COLS ++ features_NUM_COLS

/-- main.py:265: `expected = CAT_COLS + NUM_COLS` with main.py's own lists;
main.py:270 then hands `X = df_inf[expected]` to the model. -/
def inferenceExpectedColumns : List String := main_CAT_COLS ++ main_NUM_COLS

/-! ## Discount windows (features.py lines 151-279)

`_enrich_with_discount_features` receives rows carrying `product_name` and
`date` and the list of discount windows returned by the range query
(features.py:180-195).  It builds the cross product of rows and windows
(features.py:206-213), filters it to covering windows for the same product
(features.py:216-220), groups by the original row index taking the maximum
`discount_percent` (features.py:223-226), and writes `(1, max)` back to the
covered rows, all others keeping the defaults `(0, 0.0)`
(features.py:229-235). -/

structure DiscountWindow where
  product_name : String
  discount_percent : ℚ
  start_date : Int
  end_date : Int

/-- features.py:216-219, the filter condition of the cross product (same
product, `start_date ≤ date ≤ end_date`). -/
def coversOn (p : String) (d : Int) (w : DiscountWindow) : Bool :=
  (w.product_name == p) && decide (w.start_date ≤ d) && decide (d ≤ w.end_date)

/-- features.py:211-213: `df_temp.merge(df_discounts, on="key")` — the cross
product of indexed rows and windows. -/
def crossJoin (idxRows : List (Nat × String × Int)) (ws : List DiscountWindow) :
    List ((Nat × String × Int) × DiscountWindow) :=
  idxRows.flatMap (fun r => ws.map (fun w => (r, w)))

/-- features.py:203-235: the net per-row discount activation. Each row is
tagged with its original index (`df_temp["original_index"]`), the active
cross product is grouped by that index and the maximum percent taken; rows
with no active window keep `(0, 0.0)`. -/
def enrichDiscountActive (rows : List (String × Int)) (ws : List DiscountWindow) :
    List (Nat × ℚ) :=
  let idxRows := rows.enum
  let active := (crossJoin idxRows ws).filter
    (fun rw => coversOn rw.1.2.1 rw.1.2.2 rw.2)
  idxRows.map (fun r =>
    match (active.filter (fun rw => rw.1.1 == r.1)).map
        (fun rw => rw.2.discount_percent) with
    | [] => (0, 0)
    | q :: qs => (1, qs.foldl max q))

/-- The brute-force cross-product-then-filter semantics named by spec §4.2:
select the covering windows of the row's product, then
`has_active_discount = 1` iff the selection is non-empty and
`discount_percent` = max percent over the selection, else `(0, 0.0)`. -/
def discountBrute (p : String) (d : Int) (ws : List DiscountWindow) : Nat × ℚ :=
  match ws.filter (fun w => coversOn p d w) with
  | [] => (0, 0)
  | w :: rest => (1, (rest.map (fun v => v.discount_percent)).foldl max w.discount_percent)

/-! ## Enrichment data source behaviours (features.py lines 116-352)

The resolvers guard three situations: `engine is None` (features.py:172,
305), any query raising (the try/except at features.py:175/274 and
308/347), and the queries returning no rows (features.py:197, 334).  The
`available` constructor carries what the three queries would return:
discount windows, discount-effectiveness rows, and basket-analysis rows. -/

structure EffectivenessRow where
  product_name : String
  discount_percent : ℚ
  sales_lift_percent : ℚ

structure BasketAssociation where
  primary_product : String
  confidence_score : ℚ

inductive EnrichmentSource where
  | unavailable
  | failing
  | available (ws : List DiscountWindow) (effs : List EffectivenessRow)
      (assocs : List BasketAssociation)

structure DiscountFeatures where
  has_active_discount : Nat
  discount_percent : ℚ
  avg_discount_effectiveness : ℚ
deriving DecidableEq

/-- features.py:168-170, the safe fallbacks set before any query. -/
def defaultDiscountFeatures : DiscountFeatures :=
  { has_active_discount := 0, discount_percent := 0, avg_discount_effectiveness := 0 }

structure BasketFeatures where
  basket_association_count : Nat
  top_basket_confidence : ℚ
  avg_basket_confidence : ℚ
deriving DecidableEq

/-- features.py:301-303, the safe fallbacks set before any query. -/
def defaultBasketFeatures : BasketFeatures :=
  { basket_association_count := 0, top_basket_confidence := 0, avg_basket_confidence := 0 }

/-- features.py:244-253: `AVG(sales_lift_percent) ... WHERE discount_percent > 0
GROUP BY product_name, discount_percent`, merged on exact
(product_name, discount_percent) match; `none` models a failed left join
that features.py:269 fills with 0.0. -/
def effAvg (p : String) (pct : ℚ) (effs : List EffectivenessRow) : Option ℚ :=
  let grp := effs.filter (fun e =>
    (e.product_name == p) && (e.discount_percent == pct) && decide (0 < e.discount_percent))
  match grp with
  | [] => none
  | _ :: _ => some ((grp.map (fun e => e.sales_lift_percent)).sum / (grp.length : ℚ))

/-- features.py:151-279, `_enrich_with_discount_features` as a total function:
rows keep the defaults when the engine is missing, a query raises, or the
range query returns no windows; otherwise the cross-join pipeline sets the
activation and max percent and the effectiveness join fills
`avg_discount_effectiveness`. -/
def enrichWithDiscountFeatures (rows : List (String × Int)) (src : EnrichmentSource) :
    List DiscountFeatures :=
  match src with
  | .unavailable => rows.map (fun _ => defaultDiscountFeatures)
  | .failing => rows.map (fun _ => defaultDiscountFeatures)
  | .available ws effs _ =>
    if ws.isEmpty then rows.map (fun _ => defaultDiscountFeatures)
    else
      (rows.zip (enrichDiscountActive rows ws)).map (fun rf =>
        { has_active_discount := rf.2.1,
          discount_percent := rf.2.2,
          avg_discount_effectiveness := (effAvg rf.1.1 rf.2.2 effs).getD 0 })

/-- features.py:316-325: `COUNT(*), MAX(confidence_score), AVG(confidence_score)
GROUP BY primary_product`, left-joined per row with 0-defaults for missing
products (features.py:343-345). -/
def basketStats (p : String) (assocs : List BasketAssociation) : BasketFeatures :=
  match assocs.filter (fun a => a.primary_product == p) with
  | [] => defaultBasketFeatures
  | c :: cs =>
    { basket_association_count := (c :: cs).length,
      top_basket_confidence :=
        (cs.map (fun a => a.confidence_score)).foldl max c.confidence_score,
      avg_basket_confidence :=
        ((c :: cs).map (fun a => a.confidence_score)).sum / ((c :: cs).length : ℚ) }

/-- features.py:284-352, `_enrich_with_basket_features` as a total function. -/
def enrichWithBasketFeatures (rows : List String) (src : EnrichmentSource) :
    List BasketFeatures :=
  match src with
  | .unavailable => rows.map (fun _ => defaultBasketFeatures)
  | .failing => rows.map (fun _ => defaultBasketFeatures)
  | .available _ _ assocs => rows.map (fun p => basketStats p assocs)

/-! ## Calendar grid (features.py lines 79-113 and 457-547)

Dates are integers (days since 1970-01-01).  The pandas datetime accessors
(`dt.year/month/day/weekday/dayofyear`) are modelled through the standard
Gregorian civil-from-days / days-from-civil conversions with floor
division; 1970-01-01 is a Thursday, so `weekday` (Monday = 0) is
`(d + 3) mod 7`. -/

/-- Days since 1970-01-01 of a Gregorian civil date. -/
def daysFromCivil (y m d : Int) : Int :=
  let yAdj := if m ≤ 2 then y - 1 else y
  let era := Int.ediv yAdj 400
  let yoe := yAdj - era * 400
  let mp := Int.emod (m + 9) 12
  let doyv := Int.ediv (153 * mp + 2) 5 + d - 1
  let doe := yoe * 365 + Int.ediv yoe 4 - Int.ediv yoe 100 + doyv
  era * 146097 + doe - 719468

/-- Gregorian civil date (year, month, day) of a days-since-1970 count. -/
def civilFromDays (z0 : Int) : Int × Int × Int :=
  let z := z0 + 719468
  let era := Int.ediv z 146097
  let doe := z - era * 146097
  let yoe := Int.ediv
    (doe - Int.ediv doe 1460 + Int.ediv doe 36524 - Int.ediv doe 146096) 365
  let y := yoe + era * 400
  let doyv := doe - (365 * yoe + Int.ediv yoe 4 - Int.ediv yoe 100)
  let mp := Int.ediv (5 * doyv + 2) 153
  let d := doyv - Int.ediv (153 * mp + 2) 5 + 1
  let m := mp + (if mp < 10 then 3 else -9)
  (if m ≤ 2 then y + 1 else y, m, d)

/-- Whitespace as stripped by pandas `.str.strip()`. -/
def isSpaceChar (c : Char) : Bool := (c == ' ') || (c == '\t') || (c == '\n') || (c == '\r')

/-- Model of pandas `.str.strip()`: drop leading and trailing whitespace. -/
def stripString (s : String) : String :=
  String.mk (((s.data.dropWhile isSpaceChar).reverse.dropWhile isSpaceChar).reverse)

/-- features.py:99-113, `_clean_products`: trim, drop empties, deduplicate
keeping the first occurrence (pandas `drop_duplicates`). -/
def dedupFirstAux (seen : List String) : List String → List String
  | [] => []
  | a :: l => if seen.contains a then dedupFirstAux seen l
              else a :: dedupFirstAux (a :: seen) l

def cleanProducts (products : List String) : List String :=
  dedupFirstAux [] ((products.map stripString).filter (fun s => s != ""))

/-- features.py:79-96, `_to_local_date_range`: the inclusive daily range,
empty when end < start (which `_to_local_date_range` rejects). -/
def dateRangeList (start endD : Int) : List Int :=
  (List.range (endD + 1 - start).toNat).map (fun (i : Nat) => start + (i : Int))

/-- One row of the grid returned by `calendar_grid` (features.py:547):
`product_name`, `date`, the 7 calendar features, the 3 discount features
and the 3 basket features. -/
structure GridRow where
  product_name : String
  date : Int
  year : Int
  month : Int
  day : Int
  dow : Int
  doy : Int
  is_weekend : Nat
  days_to_halloween : Int
  has_active_discount : Nat
  discount_percent : ℚ
  avg_discount_effectiveness : ℚ
  basket_association_count : Nat
  top_basket_confidence : ℚ
  avg_basket_confidence : ℚ

/-- features.py:508-526: one (product, date) cell of the cartesian grid with
its calendar features; the discount/basket fields hold the defaults that
features.py:168-170 and 301-303 will overwrite. -/
def baseGridRow (p : String) (d : Int) : GridRow :=
  let c := civilFromDays d
  let dw := Int.emod (d + 3) 7
  { product_name := p
    date := d
    year := c.1
    month := c.2.1
    day := c.2.2
    dow := dw
    doy := d - daysFromCivil c.1 1 1 + 1
    is_weekend := if 5 ≤ dw then 1 else 0
    days_to_halloween := daysFromCivil c.1 10 31 - d
    has_active_discount := 0
    discount_percent := 0
    avg_discount_effectiveness := 0
    basket_association_count := 0
    top_basket_confidence := 0
    avg_basket_confidence := 0 }

/-- features.py:528-535: run the two resolvers over the grid rows and write
their six feature columns back. -/
def applyEnrichment (g : List GridRow) (src : EnrichmentSource) : List GridRow :=
  let disc := enrichWithDiscountFeatures (g.map (fun r => (r.product_name, r.date))) src
  let bask := enrichWithBasketFeatures (g.map (fun r => r.product_name)) src
  (g.zip (disc.zip bask)).map (fun t =>
    { t.1 with
      has_active_discount := t.2.1.has_active_discount
      discount_percent := t.2.1.discount_percent
      avg_discount_effectiveness := t.2.1.avg_discount_effectiveness
      basket_association_count := t.2.2.basket_association_count
      top_basket_confidence := t.2.2.top_basket_confidence
      avg_basket_confidence := t.2.2.avg_basket_confidence })

/-- features.py:457-547, `calendar_grid`: validate products and date range,
build the cartesian (products × dates) grid, enrich, and return the rows in
the fixed column order. -/
def calendarGrid (products : List String) (start endD : Int) (src : EnrichmentSource) :
    Except String (List GridRow) :=
  let names := cleanProducts products
  if names.isEmpty then
    .error ("calendar_grid: products must be a non-empty sequence of names.")
  else if (dateRangeList start endD).isEmpty then
    .error ("Empty date range: ensure end is on or after start.")
  else
    .ok (applyEnrichment
      (names.flatMap (fun p => (dateRangeList start endD).map (fun d => baseGridRow p d)))
      src)

/-- features.py:547: `grid[["product_name", "date"] + NUM_COLS]`. -/
def calendarGridColumns : List String := ["product_name", "date"] ++ features_NUM_COLS

/-! ## C10 — make_features and its frame effect (features.py lines 357-454)

Pandas DataFrames are heap objects mutated in place by column assignment;
`make_features` first rebinds `df` to `df.copy()` (features.py:409) and
performs every subsequent in-place mutation on the copy.  The heap is a
list of frames addressed by index; a frame carries the three input columns
and, as `Option` fields, the feature columns an enrichment step may add.
The raw `date` column holds `some day-number` for parseable values and
`none` for values on which `pd.to_datetime(errors="raise")` raises; the
raw `units` column holds `some value` for numeric entries and `none` for
garbage that `pd.to_numeric(errors="coerce")` turns into NaN. -/

structure MLFrame where
  product_name : List String
  date : List (Option Int)
  units : List (Option Int)
  year : Option (List Int) := none
  month : Option (List Int) := none
  day : Option (List Int) := none
  dow : Option (List Int) := none
  doy : Option (List Int) := none
  is_weekend : Option (List Int) := none
  days_to_halloween : Option (List Int) := none
  has_active_discount : Option (List Nat) := none
  discount_percent : Option (List ℚ) := none
  avg_discount_effectiveness : Option (List ℚ) := none
  basket_association_count : Option (List Nat) := none
  top_basket_confidence : Option (List ℚ) := none
  avg_basket_confidence : Option (List ℚ) := none
deriving DecidableEq

instance : Inhabited MLFrame := ⟨{ product_name := [], date := [], units := [] }⟩

/-- One in-place mutation (`df[col] = ...`) of the frame at index `i`. -/
def updateAt (hp : List MLFrame) (i : Nat) (f : MLFrame → MLFrame) : List MLFrame :=
  hp.set i (f (hp.getD i default))

/-- One row of `X = df[CAT_COLS + NUM_COLS]` (features.py:451). -/
structure FeatureRow where
  product_name : String
  year : Int
  month : Int
  day : Int
  dow : Int
  doy : Int
  is_weekend : Int
  days_to_halloween : Int
  has_active_discount : Nat
  discount_percent : ℚ
  avg_discount_effectiveness : ℚ
  basket_association_count : Nat
  top_basket_confidence : ℚ
  avg_basket_confidence : ℚ

/-- features.py:357-454, `make_features` over the frame heap: copy the input
frame, normalize the copy in place, add calendar and enrichment columns to
the copy, and read off `(X, y)`.  The input frame at `r` is never written. -/
def makeFeaturesHeap (h : List MLFrame) (r : Nat) (src : EnrichmentSource) :
    List MLFrame × Except String (List FeatureRow × List Int) :=
  -- features.py:409  df = df.copy()
  let c := h.length
  let h1 := h ++ [h.getD r default]
  -- features.py:412  product_name trimmed in place on the copy
  let h2 := updateAt h1 c (fun f =>
    { f with product_name := f.product_name.map stripString })
  -- features.py:413  pd.to_datetime(..., errors="raise") raises on bad dates
  if (h2.getD c default).date.any (fun o => o.isNone) then
    (h2, .error ("make_features: date parsing failed"))
  else
    -- features.py:415  units coerced: garbage → 0, negatives clipped to 0
    let h3 := updateAt h2 c (fun f =>
      { f with units := f.units.map (fun u => some (max 0 (u.getD 0))) })
    -- features.py:419-428  calendar feature columns
    let h4 := updateAt h3 c (fun f =>
      let ds := f.date.map (fun o => o.getD 0)
      { f with
        year := some (ds.map (fun d => (civilFromDays d).1))
        month := some (ds.map (fun d => (civilFromDays d).2.1))
        day := some (ds.map (fun d => (civilFromDays d).2.2))
        dow := some (ds.map (fun d => Int.emod (d + 3) 7))
        doy := some (ds.map (fun d => d - daysFromCivil (civilFromDays d).1 1 1 + 1))
        is_weekend := some (ds.map (fun d => if 5 ≤ Int.emod (d + 3) 7 then 1 else 0))
        days_to_halloween :=
          some (ds.map (fun d => daysFromCivil (civilFromDays d).1 10 31 - d)) })
    -- features.py:435  discount enrichment writes three columns on the copy
    let h5 := updateAt h4 c (fun f =>
      let disc := enrichWithDiscountFeatures
        (f.product_name.zip (f.date.map (fun o => o.getD 0))) src
      { f with
        has_active_discount := some (disc.map (fun x => x.has_active_discount))
        discount_percent := some (disc.map (fun x => x.discount_percent))
        avg_discount_effectiveness :=
          some (disc.map (fun x => x.avg_discount_effectiveness)) })
    -- features.py:438  basket enrichment writes three columns on the copy
    let h6 := updateAt h5 c (fun f =>
      let bask := enrichWithBasketFeatures f.product_name src
      { f with
        basket_association_count := some (bask.map (fun x => x.basket_association_count))
        top_basket_confidence := some (bask.map (fun x => x.top_basket_confidence))
        avg_basket_confidence := some (bask.map (fun x => x.avg_basket_confidence)) })
    -- features.py:450-452  X = df[CAT_COLS + NUM_COLS].copy(), y = df["units"]
    let f := h6.getD c default
    let X := (List.range f.product_name.length).map (fun i =>
      ({ product_name := f.product_name.getD i (""),
         year := (f.year.getD []).getD i 0,
         month := (f.month.getD []).getD i 0,
         day := (f.day.getD []).getD i 0,
         dow := (f.dow.getD []).getD i 0,
         doy := (f.doy.getD []).getD i 0,
         is_weekend := (f.is_weekend.getD []).getD i 0,
         days_to_halloween := (f.days_to_halloween.getD []).getD i 0,
         has_active_discount := (f.has_active_discount.getD []).getD i 0,
         discount_percent := (f.discount_percent.getD []).getD i 0,
         avg_discount_effectiveness := (f.avg_discount_effectiveness.getD []).getD i 0,
         basket_association_count := (f.basket_association_count.getD []).getD i 0,
         top_basket_confidence := (f.top_basket_confidence.getD []).getD i 0,
         avg_basket_confidence := (f.avg_basket_confidence.getD []).getD i 0 } : FeatureRow))
    let y := f.units.map (fun u => u.getD 0)
    (h6, .ok (X, y))

/-- A one-frame heap used as the concrete witness input. -/
def c10SampleHeap : List MLFrame :=
  [{ product_name := [(" CandyX ")], date := [some 20000], units := [some 5] }]

/-! ## Theorems -/

/-! ## Helper lemmas for `dayFraction` -/

theorem dayFraction_nonneg (now : ℚ) (oh ch : Int) : 0 ≤ dayFraction now oh ch := by
  unfold dayFraction
  dsimp only
  split
  · exact le_refl 0
  · split
    · exact zero_le_one
    · rename_i h1 h2
      push_neg at h1 h2
      have hnum : (0 : ℚ) ≤ now - (oh : ℚ) * 3600 := by linarith
      have hden : (0 : ℚ) < max 1 ((ch : ℚ) * 3600 - (oh : ℚ) * 3600) :=
        lt_of_lt_of_le zero_lt_one (le_max_left _ _)
      exact div_nonneg hnum (le_of_lt hden)

theorem dayFraction_le_one (now : ℚ) (oh ch : Int) : dayFraction now oh ch ≤ 1 := by
  unfold dayFraction
  dsimp only
  split
  · exact zero_le_one
  · split
    · exact le_refl 1
    · rename_i h1 h2
      push_neg at h1 h2
      have hden : (0 : ℚ) < max 1 ((ch : ℚ) * 3600 - (oh : ℚ) * 3600) :=
        lt_of_lt_of_le zero_lt_one (le_max_left _ _)
      rw [div_le_one hden]
      have : now - (oh : ℚ) * 3600 ≤ (ch : ℚ) * 3600 - (oh : ℚ) * 3600 := by linarith
      exact le_trans this (le_max_right _ _)

/-! ## C1 -/

/-- C1: for every model prediction, every non-negative observed partial total,
every day fraction and every ACCEL, the blended end-of-day estimate of
`ml_forecast_intraday` (with the default MIN_FRAC) is at least the observed
partial total (main.py:470). -/
theorem c1_observed_floor (modelPred observed frac accel : ℚ)
    (_hobs : 0 ≤ observed) :
    observed ≤ eodUnits modelPred observed frac accel INTRADAY_MIN_FRAC :=
  le_max_right _ _

/-- Witness for C1 at model_pred=100, partial=40, frac=1/2, ACCEL=5/4. -/
theorem c1_observed_floor_witness :
    (0 : ℚ) ≤ 40 ∧
      (40 : ℚ) ≤ eodUnits 100 40 (1/2) INTRADAY_WEIGHT_ACCEL INTRADAY_MIN_FRAC :=
  ⟨by norm_num, c1_observed_floor 100 40 (1/2) INTRADAY_WEIGHT_ACCEL (by norm_num)⟩

/-! ## C3 -/

/-- C3: before the observed floor, the intraday blend computes exactly the
formula of spec §4.5 (`w = clamp(day_fraction × ACCEL, 0, 1)`,
`effective_fraction = max(day_fraction, MIN_FRACTION)`), and on the spec's
scenario model_pred=100, partial=40, day_fraction=1/2, ACCEL=5/4 it yields
w=5/8, extrapolated=80 and eod=87.5. -/
theorem c3_blend_formula (modelPred observed frac accel minFrac : ℚ) :
    preFloorEod modelPred observed frac accel minFrac
        = eodBlendSpec modelPred observed frac accel minFrac ∧
      intradayW (1/2) INTRADAY_WEIGHT_ACCEL = 5/8 ∧
      (40 : ℚ) / max (1/2) INTRADAY_MIN_FRAC = 80 ∧
      preFloorEod 100 40 (1/2) INTRADAY_WEIGHT_ACCEL INTRADAY_MIN_FRAC = 175/2 := by
  refine ⟨?_, ?_, ?_, ?_⟩
  · unfold preFloorEod eodBlendSpec intradayW
    dsimp only
    have hclamp : min 1 (max 0 (frac * accel)) = max 0 (min 1 (frac * accel)) := by
      rw [min_max_distrib_left, min_eq_right zero_le_one]
    rw [hclamp]
  · unfold intradayW INTRADAY_WEIGHT_ACCEL
    norm_num
  · unfold INTRADAY_MIN_FRAC
    rw [max_eq_left (by norm_num)]
    norm_num
  · unfold preFloorEod intradayW INTRADAY_WEIGHT_ACCEL INTRADAY_MIN_FRAC
    rw [max_eq_left (by norm_num)]
    norm_num

/-! ## C8 -/

/-- C8 counterexample: at day_fraction = 0 with model_pred = 10 and observed
partial units 50, the blend returns 50, not the model prediction 10 — the
observed floor of main.py:470 overrides the model value. -/
theorem c8_counterexample :
    eodUnits 10 50 0 INTRADAY_WEIGHT_ACCEL INTRADAY_MIN_FRAC = 50 ∧
      (50 : ℚ) ≠ 10 := by
  constructor
  · unfold eodUnits preFloorEod intradayW INTRADAY_WEIGHT_ACCEL INTRADAY_MIN_FRAC
    norm_num
  · norm_num

/-- C8 amended: when day_fraction = 0 the blended estimate is
`max(model_pred, partial_units)`, hence equals the model's full-day
prediction exactly when the observed partial units do not exceed it. -/
theorem c8_day_fraction_zero (modelPred observed accel minFrac : ℚ)
    (h : observed ≤ modelPred) :
    eodUnits modelPred observed 0 accel minFrac = modelPred := by
  unfold eodUnits preFloorEod intradayW
  dsimp only
  rw [zero_mul, max_self, min_eq_right zero_le_one]
  rw [sub_zero, one_mul, zero_mul, add_zero, max_eq_left h]

/-- Witness for C8's amended theorem at model_pred=100, observed=40. -/
theorem c8_day_fraction_zero_witness :
    eodUnits 100 40 0 INTRADAY_WEIGHT_ACCEL INTRADAY_MIN_FRAC = 100 :=
  c8_day_fraction_zero 100 40 INTRADAY_WEIGHT_ACCEL INTRADAY_MIN_FRAC (by norm_num)

/-! ## C4 -/

/-- C4 counterexample: with open_hour=22 and close_hour=8 (both accepted by
the endpoint, main.py:395-396) and now=10:00 (36000 s), `_day_fraction`
returns 0, although now is at-or-after the close time (8:00), where the
claim demands 1. -/
theorem c4_counterexample :
    dayFraction 36000 22 8 = 0 ∧ (8 : ℚ) * 3600 ≤ 36000 ∧ (0 : ℚ) ≠ 1 := by
  refine ⟨?_, by norm_num, by norm_num⟩
  unfold dayFraction
  norm_num

/-- C4 amended: provided open_hour < close_hour, `_day_fraction` is 0 at or
before the open time, 1 at or after the close time, the linear interpolation
`(now − open) / (close − open)` strictly between them, and monotone
non-decreasing in `now`. -/
theorem c4_day_fraction (openHour closeHour : Int) (now now2 : ℚ)
    (hoc : openHour < closeHour) :
    (now ≤ (openHour : ℚ) * 3600 → dayFraction now openHour closeHour = 0) ∧
      ((closeHour : ℚ) * 3600 ≤ now → dayFraction now openHour closeHour = 1) ∧
      ((openHour : ℚ) * 3600 < now → now < (closeHour : ℚ) * 3600 →
        dayFraction now openHour closeHour
          = (now - (openHour : ℚ) * 3600)
              / ((closeHour : ℚ) * 3600 - (openHour : ℚ) * 3600)) ∧
      (now ≤ now2 →
        dayFraction now openHour closeHour ≤ dayFraction now2 openHour closeHour) := by
  have hoc' : (openHour : ℚ) < (closeHour : ℚ) := by exact_mod_cast hoc
  have hsucc : (openHour : ℚ) + 1 ≤ (closeHour : ℚ) := by
    have : openHour + 1 ≤ closeHour := hoc
    exact_mod_cast this
  have hgap : (1 : ℚ) ≤ (closeHour : ℚ) * 3600 - (openHour : ℚ) * 3600 := by nlinarith
  have hden : max 1 ((closeHour : ℚ) * 3600 - (openHour : ℚ) * 3600)
      = (closeHour : ℚ) * 3600 - (openHour : ℚ) * 3600 := max_eq_right hgap
  have hdpos : (0 : ℚ) < (closeHour : ℚ) * 3600 - (openHour : ℚ) * 3600 := by linarith
  have hzero : ∀ t : ℚ, t ≤ (openHour : ℚ) * 3600 → dayFraction t openHour closeHour = 0 := by
    intro t ht
    unfold dayFraction
    rw [if_pos ht]
  have hone : ∀ t : ℚ, (closeHour : ℚ) * 3600 ≤ t → dayFraction t openHour closeHour = 1 := by
    intro t ht
    unfold dayFraction
    rw [if_neg (by push_neg; linarith), if_pos ht]
  have hmid : ∀ t : ℚ, (openHour : ℚ) * 3600 < t → t < (closeHour : ℚ) * 3600 →
      dayFraction t openHour closeHour
        = (t - (openHour : ℚ) * 3600) / ((closeHour : ℚ) * 3600 - (openHour : ℚ) * 3600) := by
    intro t h1 h2
    unfold dayFraction
    rw [if_neg (by push_neg; exact h1), if_neg (by push_neg; exact h2), hden]
  refine ⟨hzero now, hone now, hmid now, ?_⟩
  intro hle
  rcases le_or_lt now ((openHour : ℚ) * 3600) with h1 | h1
  · rw [hzero now h1]
    exact dayFraction_nonneg now2 openHour closeHour
  rcases le_or_lt ((closeHour : ℚ) * 3600) now with h2 | h2
  · rw [hone now h2, hone now2 (le_trans h2 hle)]
  rw [hmid now h1 h2]
  rcases le_or_lt ((closeHour : ℚ) * 3600) now2 with h3 | h3
  · rw [hone now2 h3, div_le_one hdpos]
    linarith
  · rw [hmid now2 (lt_of_lt_of_le h1 hle) h3]
    exact (div_le_div_iff_of_pos_right hdpos).mpr (by linarith)

/-- Witness for C4's amended theorem: open=8, close=22, now=15:00 gives 1/2. -/
theorem c4_day_fraction_witness :
    dayFraction (15 * 3600) 8 22
      = ((15 : ℚ) * 3600 - (8 : ℚ) * 3600) / ((22 : ℚ) * 3600 - (8 : ℚ) * 3600) ∧
    dayFraction (15 * 3600) 8 22 = 1/2 := by
  have h := (c4_day_fraction 8 22 (15 * 3600) (15 * 3600) (by norm_num)).2.2.1
    (by norm_num) (by norm_num)
  refine ⟨h, ?_⟩
  rw [h]
  norm_num

/-- C2: the inference-time column selection of main.py does NOT equal the
training-time column selection — inference passes product_name plus only
the 7 calendar columns, while the model was trained on product_name plus
the 13 numeric columns of features.py (which match the claimed list). -/
theorem c2_feature_schema_mismatch :
    inferenceExpectedColumns ≠ trainFeatureColumns ∧
      inferenceExpectedColumns.length = 8 ∧
      trainFeatureColumns.length = 14 ∧
      trainFeatureColumns
        = ["product_name", "year", "month", "day", "dow", "doy", "is_weekend",
           "days_to_halloween", "has_active_discount", "discount_percent",
           "avg_discount_effectiveness", "basket_association_count",
           "top_basket_confidence", "avg_basket_confidence"] := by
  refine ⟨?_, by decide, by decide, by decide⟩
  decide

/-! ### foldl-max helper lemmas -/

theorem foldl_max_start_le {α : Type} [LinearOrder α] (qs : List α) :
    ∀ q : α, q ≤ qs.foldl max q := by
  induction qs with
  | nil => intro q; exact le_refl q
  | cons x xs ih =>
    intro q
    exact le_trans (le_max_left q x) (ih (max q x))

theorem le_foldl_max {α : Type} [LinearOrder α] (qs : List α) :
    ∀ (q a : α), a ∈ qs → a ≤ qs.foldl max q := by
  induction qs with
  | nil => intro q a h; exact absurd h (List.not_mem_nil a)
  | cons x xs ih =>
    intro q a h
    rcases List.mem_cons.mp h with h | h
    · subst h
      exact le_trans (le_max_right q a) (foldl_max_start_le xs (max q a))
    · exact ih (max q x) a h

theorem foldl_max_mem {α : Type} [LinearOrder α] (qs : List α) :
    ∀ q : α, qs.foldl max q ∈ q :: qs := by
  induction qs with
  | nil => intro q; exact List.mem_singleton.mpr rfl
  | cons x xs ih =>
    intro q
    rw [List.foldl_cons]
    have h := ih (max q x)
    rcases List.mem_cons.mp h with h | h
    · rcases max_choice q x with hq | hx
      · rw [h, hq]; exact List.mem_cons_self q (x :: xs)
      · rw [h, hx]; exact List.mem_cons.mpr (Or.inr (List.mem_cons_self x xs))
    · exact List.mem_cons.mpr (Or.inr (List.mem_cons.mpr (Or.inr h)))

/-! ### cross-join bookkeeping lemmas -/

theorem crossJoin_cons (r : Nat × String × Int) (idxRows : List (Nat × String × Int))
    (ws : List DiscountWindow) :
    crossJoin (r :: idxRows) ws = ws.map (fun w => (r, w)) ++ crossJoin idxRows ws := by
  unfold crossJoin
  rw [List.flatMap_cons]

theorem pairBlock_filter (j : Nat) (p : String) (d : Int) (ws : List DiscountWindow) :
    (ws.map (fun w => ((j, p, d), w))).filter (fun rw => coversOn rw.1.2.1 rw.1.2.2 rw.2)
      = (ws.filter (fun w => coversOn p d w)).map (fun w => ((j, p, d), w)) := by
  induction ws with
  | nil => rfl
  | cons w ws ih =>
    simp only [List.map_cons, List.filter_cons]
    by_cases h : coversOn p d w
    · simp [h, ih]
    · simp [h, ih]

theorem keyFilter_of_ne (ws : List DiscountWindow) (j : Nat) (p : String) (d : Int)
    (i : Nat) (hne : j ≠ i) :
    ((ws.filter (fun w => coversOn p d w)).map (fun w => ((j, p, d), w))).filter
        (fun rw => rw.1.1 == i) = [] := by
  rw [List.filter_eq_nil_iff]
  intro a ha
  rcases List.mem_map.mp ha with ⟨w, _, rfl⟩
  simp [hne]

theorem keyFilter_of_eq (ws : List DiscountWindow) (i : Nat) (p : String) (d : Int) :
    ((ws.filter (fun w => coversOn p d w)).map (fun w => ((i, p, d), w))).filter
        (fun rw => rw.1.1 == i)
      = (ws.filter (fun w => coversOn p d w)).map (fun w => ((i, p, d), w)) := by
  rw [List.filter_eq_self]
  intro a ha
  rcases List.mem_map.mp ha with ⟨w, _, rfl⟩
  simp

theorem activeKeyFilter_nil (ws : List DiscountWindow) (i : Nat) :
    ∀ L : List (Nat × String × Int), i ∉ L.map Prod.fst →
      ((crossJoin L ws).filter (fun rw => coversOn rw.1.2.1 rw.1.2.2 rw.2)).filter
        (fun rw => rw.1.1 == i) = [] := by
  intro L
  induction L with
  | nil => intro _; rfl
  | cons r L ih =>
    obtain ⟨j, p2, d2⟩ := r
    intro hi
    have hri : j ≠ i := by
      intro h
      exact hi (by rw [List.map_cons]; exact List.mem_cons.mpr (Or.inl h.symm))
    have hLi : i ∉ L.map Prod.fst := by
      intro h
      exact hi (by rw [List.map_cons]; exact List.mem_cons.mpr (Or.inr h))
    rw [crossJoin_cons, List.filter_append, List.filter_append, pairBlock_filter,
      keyFilter_of_ne ws j p2 d2 i hri, List.nil_append]
    exact ih hLi

theorem activeKeyFilter_block (ws : List DiscountWindow) (i : Nat) (p : String) (d : Int) :
    ∀ L : List (Nat × String × Int), (L.map Prod.fst).Nodup → (i, p, d) ∈ L →
      ((crossJoin L ws).filter (fun rw => coversOn rw.1.2.1 rw.1.2.2 rw.2)).filter
          (fun rw => rw.1.1 == i)
        = (ws.filter (fun w => coversOn p d w)).map (fun w => ((i, p, d), w)) := by
  intro L
  induction L with
  | nil => intro _ hm; exact absurd hm (List.not_mem_nil _)
  | cons r L ih =>
    obtain ⟨j, p2, d2⟩ := r
    intro hnd hm
    rw [List.map_cons] at hnd
    have hnotin := (List.nodup_cons.mp hnd).1
    have hndL := (List.nodup_cons.mp hnd).2
    rw [crossJoin_cons, List.filter_append, List.filter_append, pairBlock_filter]
    rcases List.mem_cons.mp hm with hm | hm
    · have hj : j = i := congrArg Prod.fst hm.symm
      have hp : p2 = p := congrArg (fun x => x.2.1) hm.symm
      have hd : d2 = d := congrArg (fun x => x.2.2) hm.symm
      subst hj; subst hp; subst hd
      rw [keyFilter_of_eq, activeKeyFilter_nil ws j L hnotin, List.append_nil]
    · have hiL : i ∈ L.map Prod.fst := List.mem_map.mpr ⟨(i, p, d), hm, rfl⟩
      have hri : j ≠ i := fun h => hnotin (h ▸ hiL)
      rw [keyFilter_of_ne ws j p2 d2 i hri, List.nil_append]
      exact ih hndL hm

/-! ### discountBrute characterization -/

theorem matchPercent_eq_discountBrute (p : String) (d : Int) (ws : List DiscountWindow) :
    (match (ws.filter (fun w => coversOn p d w)).map (fun w => w.discount_percent) with
      | [] => ((0 : Nat), (0 : ℚ))
      | q :: qs => (1, qs.foldl max q))
      = discountBrute p d ws := by
  unfold discountBrute
  cases h : ws.filter (fun w => coversOn p d w) with
  | nil => rfl
  | cons w rest => rfl

theorem discountBrute_active_iff (p : String) (d : Int) (ws : List DiscountWindow) :
    (discountBrute p d ws).1 = 1 ↔ ∃ w ∈ ws, coversOn p d w = true := by
  unfold discountBrute
  cases h : ws.filter (fun w => coversOn p d w) with
  | nil =>
    constructor
    · intro h0; exact absurd h0 (by norm_num)
    · rintro ⟨w, hw, hc⟩
      have hwf : w ∈ ws.filter (fun v => coversOn p d v) := List.mem_filter.mpr ⟨hw, hc⟩
      rw [h] at hwf
      exact absurd hwf (List.not_mem_nil w)
  | cons w rest =>
    constructor
    · intro _
      have hwf : w ∈ ws.filter (fun v => coversOn p d v) := by
        rw [h]; exact List.mem_cons_self w rest
      exact ⟨w, (List.mem_filter.mp hwf).1, (List.mem_filter.mp hwf).2⟩
    · intro _; rfl

theorem discountBrute_inactive (p : String) (d : Int) (ws : List DiscountWindow)
    (hnone : ¬ ∃ w ∈ ws, coversOn p d w = true) :
    discountBrute p d ws = (0, 0) := by
  unfold discountBrute
  have hfil : ws.filter (fun w => coversOn p d w) = [] := by
    rw [List.filter_eq_nil_iff]
    intro w hw hc
    exact hnone ⟨w, hw, hc⟩
  rw [hfil]

theorem discountBrute_max_ge (p : String) (d : Int) (ws : List DiscountWindow)
    (w : DiscountWindow) (hw : w ∈ ws) (hc : coversOn p d w = true) :
    w.discount_percent ≤ (discountBrute p d ws).2 := by
  unfold discountBrute
  have hwf : w ∈ ws.filter (fun v => coversOn p d v) := List.mem_filter.mpr ⟨hw, hc⟩
  cases h : ws.filter (fun v => coversOn p d v) with
  | nil => rw [h] at hwf; exact absurd hwf (List.not_mem_nil w)
  | cons w0 rest =>
    rw [h] at hwf
    rcases List.mem_cons.mp hwf with heq | hmem
    · subst heq
      exact foldl_max_start_le _ _
    · exact le_foldl_max _ _ _ (List.mem_map.mpr ⟨w, hmem, rfl⟩)

theorem discountBrute_max_attained (p : String) (d : Int) (ws : List DiscountWindow)
    (hex : ∃ w ∈ ws, coversOn p d w = true) :
    ∃ w ∈ ws, coversOn p d w = true ∧ (discountBrute p d ws).2 = w.discount_percent := by
  unfold discountBrute
  cases h : ws.filter (fun v => coversOn p d v) with
  | nil =>
    obtain ⟨w, hw, hc⟩ := hex
    have hwf : w ∈ ws.filter (fun v => coversOn p d v) := List.mem_filter.mpr ⟨hw, hc⟩
    rw [h] at hwf
    exact absurd hwf (List.not_mem_nil w)
  | cons w0 rest =>
    have hmem := foldl_max_mem (rest.map (fun v => v.discount_percent)) w0.discount_percent
    have hmem2 : (rest.map (fun v => v.discount_percent)).foldl max w0.discount_percent
        ∈ (w0 :: rest).map (fun v => v.discount_percent) := by
      rw [List.map_cons]; exact hmem
    rcases List.mem_map.mp hmem2 with ⟨w, hwmem, hweq⟩
    have hwf : w ∈ ws.filter (fun v => coversOn p d v) := by rw [h]; exact hwmem
    exact ⟨w, (List.mem_filter.mp hwf).1, (List.mem_filter.mp hwf).2, hweq.symm⟩

theorem enrichDiscountActive_eq_brute (rows : List (String × Int))
    (ws : List DiscountWindow) :
    enrichDiscountActive rows ws = rows.map (fun r => discountBrute r.1 r.2 ws) := by
  unfold enrichDiscountActive
  dsimp only
  have hnd := List.nodup_enum_map_fst rows
  have hstep :
      rows.enum.map (fun r =>
        match (((crossJoin rows.enum ws).filter
            (fun rw => coversOn rw.1.2.1 rw.1.2.2 rw.2)).filter
              (fun rw => rw.1.1 == r.1)).map (fun rw => rw.2.discount_percent) with
        | [] => ((0 : Nat), (0 : ℚ))
        | q :: qs => (1, qs.foldl max q))
      = rows.enum.map (fun r => discountBrute r.2.1 r.2.2 ws) := by
    apply List.map_congr_left
    intro r hr
    have hblock := activeKeyFilter_block ws r.1 r.2.1 r.2.2 rows.enum hnd hr
    rw [hblock, List.map_map]
    exact matchPercent_eq_discountBrute r.2.1 r.2.2 ws
  rw [hstep]
  have hsnd := List.enum_map_snd rows
  conv_rhs => rw [← hsnd]
  rw [List.map_map]
  rfl

/-- C5: for every input row the discount resolver's cross-join /
group-by-index / max pipeline (features.py:203-235) equals the brute-force
cross-product-then-filter semantics: `has_active_discount = 1` iff some
fetched window for that product covers the date, and `discount_percent` is
the maximum percent over the covering windows (0 when there are none,
attained by one of them otherwise). -/
theorem c5_discount_resolver (rows : List (String × Int)) (ws : List DiscountWindow) :
    enrichDiscountActive rows ws = rows.map (fun r => discountBrute r.1 r.2 ws) ∧
      (∀ p d, ((discountBrute p d ws).1 = 1 ↔ ∃ w ∈ ws, coversOn p d w = true)) ∧
      (∀ p d, (¬∃ w ∈ ws, coversOn p d w = true) → discountBrute p d ws = (0, 0)) ∧
      (∀ p d w, w ∈ ws → coversOn p d w = true →
        w.discount_percent ≤ (discountBrute p d ws).2) ∧
      (∀ p d, (∃ w ∈ ws, coversOn p d w = true) →
        ∃ w ∈ ws, coversOn p d w = true ∧ (discountBrute p d ws).2 = w.discount_percent) :=
  ⟨enrichDiscountActive_eq_brute rows ws,
    fun p d => discountBrute_active_iff p d ws,
    fun p d h => discountBrute_inactive p d ws h,
    fun p d w hw hc => discountBrute_max_ge p d ws w hw hc,
    fun p d h => discountBrute_max_attained p d ws h⟩

theorem basketStats_nil (p : String) : basketStats p [] = defaultBasketFeatures := rfl

theorem enrichDiscountActive_length (rows : List (String × Int))
    (ws : List DiscountWindow) :
    (enrichDiscountActive rows ws).length = rows.length := by
  unfold enrichDiscountActive
  dsimp only
  rw [List.length_map, List.enum_length]

theorem enrichWithDiscountFeatures_length (rows : List (String × Int))
    (src : EnrichmentSource) :
    (enrichWithDiscountFeatures rows src).length = rows.length := by
  cases src with
  | unavailable => simp [enrichWithDiscountFeatures]
  | failing => simp [enrichWithDiscountFeatures]
  | available ws effs assocs =>
    by_cases h : ws.isEmpty
    · simp [enrichWithDiscountFeatures, h]
    · simp [enrichWithDiscountFeatures, h, List.length_zip, enrichDiscountActive_length]

theorem enrichWithBasketFeatures_length (rows : List String) (src : EnrichmentSource) :
    (enrichWithBasketFeatures rows src).length = rows.length := by
  cases src <;> simp [enrichWithBasketFeatures]

/-! ### cleanProducts and dateRangeList lemmas -/

theorem mem_dedupFirstAux (l : List String) :
    ∀ (seen : List String) (x : String),
      x ∈ dedupFirstAux seen l ↔ (x ∈ l ∧ x ∉ seen) := by
  induction l with
  | nil => intro seen x; simp [dedupFirstAux]
  | cons a l ih =>
    intro seen x
    by_cases hc : seen.contains a
    · have ha : a ∈ seen := by simpa using hc
      simp only [dedupFirstAux, hc, if_true]
      rw [ih seen x]
      constructor
      · rintro ⟨hx, hns⟩
        exact ⟨List.mem_cons.mpr (Or.inr hx), hns⟩
      · rintro ⟨hx, hns⟩
        rcases List.mem_cons.mp hx with rfl | hx
        · exact absurd ha hns
        · exact ⟨hx, hns⟩
    · have ha : a ∉ seen := by simpa using hc
      simp only [dedupFirstAux]
      rw [if_neg hc]
      simp only [List.mem_cons]
      rw [ih (a :: seen) x]
      constructor
      · rintro (rfl | ⟨hx, hns⟩)
        · exact ⟨Or.inl rfl, ha⟩
        · exact ⟨Or.inr hx, fun hxs => hns (List.mem_cons.mpr (Or.inr hxs))⟩
      · rintro ⟨rfl | hx, hns⟩
        · exact Or.inl rfl
        · by_cases hxa : x = a
          · exact Or.inl hxa
          · exact Or.inr ⟨hx, fun hmem => by
              rcases List.mem_cons.mp hmem with h | h
              · exact hxa h
              · exact hns h⟩

theorem nodup_dedupFirstAux (l : List String) :
    ∀ seen : List String, (dedupFirstAux seen l).Nodup := by
  induction l with
  | nil => intro seen; exact List.nodup_nil
  | cons a l ih =>
    intro seen
    by_cases hc : seen.contains a
    · simp only [dedupFirstAux, hc, if_true]
      exact ih seen
    · simp only [dedupFirstAux]
      rw [if_neg hc]
      refine List.nodup_cons.mpr ⟨?_, ih (a :: seen)⟩
      intro hmem
      exact ((mem_dedupFirstAux l (a :: seen) a).mp hmem).2 (List.mem_cons_self a seen)

theorem cleanProducts_nodup (products : List String) : (cleanProducts products).Nodup :=
  nodup_dedupFirstAux _ []

theorem dateRangeList_length (s e : Int) :
    (dateRangeList s e).length = (e + 1 - s).toNat := by
  unfold dateRangeList
  rw [List.length_map, List.length_range]

theorem mem_dateRangeList (s e d : Int) :
    d ∈ dateRangeList s e ↔ (s ≤ d ∧ d ≤ e) := by
  unfold dateRangeList
  constructor
  · intro hmem
    rcases List.mem_map.mp hmem with ⟨i, hi, rfl⟩
    rw [List.mem_range] at hi
    omega
  · intro hd
    refine List.mem_map.mpr ⟨(d - s).toNat, ?_, ?_⟩
    · rw [List.mem_range]; omega
    · omega

theorem dateRangeList_nodup (s e : Int) : (dateRangeList s e).Nodup := by
  unfold dateRangeList
  refine List.Nodup.map ?_ (List.nodup_range _)
  intro a b hab
  dsimp only at hab
  omega

/-! ### grid counting lemmas -/

theorem grid_map_key (names : List String) (dr : List Int) :
    (names.flatMap (fun p => dr.map (fun d => baseGridRow p d))).map
        (fun r => (r.product_name, r.date))
      = names.flatMap (fun n => dr.map (fun d => (n, d))) := by
  induction names with
  | nil => rfl
  | cons n names ih =>
    rw [List.flatMap_cons, List.flatMap_cons, List.map_append, ih, List.map_map]
    rfl

theorem grid_length (names : List String) (dr : List Int) :
    (names.flatMap (fun p => dr.map (fun d => baseGridRow p d))).length
      = names.length * dr.length := by
  induction names with
  | nil => simp
  | cons n names ih =>
    rw [List.flatMap_cons, List.length_append, List.length_map, ih, List.length_cons]
    ring

theorem applyEnrichment_length (g : List GridRow) (src : EnrichmentSource) :
    (applyEnrichment g src).length = g.length := by
  unfold applyEnrichment
  dsimp only
  rw [List.length_map, List.length_zip, List.length_zip,
    enrichWithDiscountFeatures_length, enrichWithBasketFeatures_length,
    List.length_map, List.length_map]
  omega

theorem map_comp_fst_zip {α β γ : Type} (g : List α) (X : List β) (f : α → γ)
    (hle : g.length ≤ X.length) :
    (g.zip X).map (fun t => f t.1) = g.map f := by
  have h2 := List.map_fst_zip g X hle
  conv_rhs => rw [← h2]
  rw [List.map_map]
  rfl

theorem applyEnrichment_map_key (g : List GridRow) (src : EnrichmentSource) :
    (applyEnrichment g src).map (fun r => (r.product_name, r.date))
      = g.map (fun r => (r.product_name, r.date)) := by
  unfold applyEnrichment
  dsimp only
  rw [List.map_map]
  have hle : g.length
      ≤ ((enrichWithDiscountFeatures (g.map (fun r => (r.product_name, r.date))) src).zip
          (enrichWithBasketFeatures (g.map (fun r => r.product_name)) src)).length := by
    rw [List.length_zip, enrichWithDiscountFeatures_length,
      enrichWithBasketFeatures_length, List.length_map, List.length_map]
    omega
  exact map_comp_fst_zip g _ (fun r => (r.product_name, r.date)) hle

theorem countP_eq_ite_mem {α : Type} [DecidableEq α] (a : α) :
    ∀ l : List α, l.Nodup → l.countP (fun x => decide (x = a)) = if a ∈ l then 1 else 0 := by
  intro l
  induction l with
  | nil => intro _; simp
  | cons x l ih =>
    intro hnd
    rw [List.countP_cons, ih (List.nodup_cons.mp hnd).2]
    have hx := (List.nodup_cons.mp hnd).1
    by_cases hxa : x = a
    · subst hxa
      rw [decide_eq_true rfl, if_pos rfl, if_neg hx,
        if_pos (List.mem_cons_self x l)]
    · rw [decide_eq_false (fun h => hxa h), if_neg (Bool.false_ne_true)]
      have hiff : (a ∈ x :: l) ↔ (a ∈ l) := by
        constructor
        · intro h
          rcases List.mem_cons.mp h with h | h
          · exact absurd h.symm hxa
          · exact h
        · exact fun h => List.mem_cons.mpr (Or.inr h)
      rw [if_congr hiff rfl rfl, Nat.add_zero]

theorem countP_pair_flatMap (dr : List Int) (p : String) (d : Int) :
    ∀ names : List String, names.Nodup → dr.Nodup →
      (names.flatMap (fun n => dr.map (fun x => (n, x)))).countP
          (fun y => decide (y = (p, d)))
        = if p ∈ names ∧ d ∈ dr then 1 else 0 := by
  intro names
  induction names with
  | nil => intro _ _; simp
  | cons n names ih =>
    intro hnd hdr
    have hn := (List.nodup_cons.mp hnd).1
    have hnds := (List.nodup_cons.mp hnd).2
    rw [List.flatMap_cons, List.countP_append, ih hnds hdr, List.countP_map]
    by_cases hp : n = p
    · subst hp
      have hblock : dr.countP ((fun y => decide (y = (n, d))) ∘ (fun x => (n, x)))
          = dr.countP (fun x => decide (x = d)) := by
        apply List.countP_congr
        intro x _
        simp [Function.comp, Prod.ext_iff]
      rw [hblock, countP_eq_ite_mem d dr hdr,
        if_neg (show ¬(n ∈ names ∧ d ∈ dr) from fun hc => hn hc.1)]
      by_cases hd : d ∈ dr
      · rw [if_pos hd, if_pos ⟨List.mem_cons_self n names, hd⟩]
      · rw [if_neg hd,
          if_neg (show ¬(n ∈ n :: names ∧ d ∈ dr) from fun hc => hd hc.2)]
    · have hblock : dr.countP ((fun y => decide (y = (p, d))) ∘ (fun x => (n, x))) = 0 := by
        rw [List.countP_eq_zero]
        intro x _
        simp [Function.comp, Prod.ext_iff, hp]
      rw [hblock, Nat.zero_add]
      by_cases hmem : p ∈ names ∧ d ∈ dr
      · rw [if_pos hmem, if_pos ⟨List.mem_cons.mpr (Or.inr hmem.1), hmem.2⟩]
      · rw [if_neg hmem, if_neg]
        rintro ⟨hpc, hd⟩
        rcases List.mem_cons.mp hpc with rfl | hpn
        · exact hp rfl
        · exact hmem ⟨hpn, hd⟩

theorem countP_key (g : List GridRow) (p : String) (d : Int) :
    g.countP (fun r => (r.product_name == p) && (r.date == d))
      = (g.map (fun r => (r.product_name, r.date))).countP
          (fun y => decide (y = (p, d))) := by
  rw [List.countP_map]
  apply List.countP_congr
  intro r _
  by_cases h1 : r.product_name = p <;> by_cases h2 : r.date = d <;>
    simp [Function.comp, Prod.ext_iff, h1, h2]

/-! ### C9 and C6 claim theorems -/

theorem calendarGrid_ok_iff_src (products : List String) (s e : Int)
    (src : EnrichmentSource) :
    (∃ g, calendarGrid products s e src = .ok g)
      ↔ (∃ g, calendarGrid products s e .failing = .ok g) := by
  unfold calendarGrid
  dsimp only
  by_cases h1 : (cleanProducts products).isEmpty
  · simp [h1]
  · by_cases h2 : (dateRangeList s e).isEmpty
    · simp [h1, h2]
    · simp [h1, h2]

/-- C9: for a cleaned non-empty product list and an inclusive range with
start ≤ end, `calendar_grid` returns exactly |products| × |dates| rows,
covering each (product, date) pair exactly once, with the fixed 15-column
schema; an empty cleaned product list, or a range with end before start,
yields a validation error instead of a grid. -/
theorem c9_calendar_grid (products : List String) (start endD : Int)
    (src : EnrichmentSource) (hne : cleanProducts products ≠ [])
    (hle : start ≤ endD) :
    (∃ g, calendarGrid products start endD src = .ok g ∧
      g.length = (cleanProducts products).length * (endD + 1 - start).toNat ∧
      (∀ p d, g.countP (fun r => (r.product_name == p) && (r.date == d))
          = if p ∈ cleanProducts products ∧ start ≤ d ∧ d ≤ endD then 1 else 0)) ∧
      calendarGridColumns
        = ["product_name", "date", "year", "month", "day", "dow", "doy", "is_weekend",
          "days_to_halloween", "has_active_discount", "discount_percent",
          "avg_discount_effectiveness", "basket_association_count",
          "top_basket_confidence", "avg_basket_confidence"] ∧
      (∀ (ps : List String) (s e : Int) (s2 : EnrichmentSource),
        cleanProducts ps = [] → ∀ g, calendarGrid ps s e s2 ≠ .ok g) ∧
      (∀ (ps : List String) (s e : Int) (s2 : EnrichmentSource),
        e < s → ∀ g, calendarGrid ps s e s2 ≠ .ok g) := by
  refine ⟨?_, rfl, ?_, ?_⟩
  · have h1 : ¬((cleanProducts products).isEmpty = true) := by
      intro h
      exact hne (List.isEmpty_iff.mp h)
    have h2 : ¬((dateRangeList start endD).isEmpty = true) := by
      intro h
      have hnil := List.isEmpty_iff.mp h
      have hlen := dateRangeList_length start endD
      rw [hnil] at hlen
      simp only [List.length_nil] at hlen
      omega
    refine ⟨applyEnrichment
      ((cleanProducts products).flatMap
        (fun p => (dateRangeList start endD).map (fun d => baseGridRow p d))) src,
      ?_, ?_, ?_⟩
    · unfold calendarGrid
      dsimp only
      rw [if_neg h1, if_neg h2]
    · rw [applyEnrichment_length, grid_length, dateRangeList_length]
    · intro p d
      rw [countP_key, applyEnrichment_map_key, grid_map_key,
        countP_pair_flatMap (dateRangeList start endD) p d (cleanProducts products)
          (cleanProducts_nodup products) (dateRangeList_nodup start endD)]
      by_cases hp : p ∈ cleanProducts products ∧ d ∈ dateRangeList start endD
      · rw [if_pos hp, if_pos ⟨hp.1, (mem_dateRangeList start endD d).mp hp.2⟩]
      · rw [if_neg hp, if_neg (fun hc =>
          hp ⟨hc.1, (mem_dateRangeList start endD d).mpr ⟨hc.2.1, hc.2.2⟩⟩)]
  · intro ps s e s2 hcp g
    simp [calendarGrid, hcp]
  · intro ps s e s2 hlt g
    have hdr : dateRangeList s e = [] := by
      have hlen := dateRangeList_length s e
      have h0 : (e + 1 - s).toNat = 0 := by omega
      rw [h0] at hlen
      exact List.length_eq_zero.mp hlen
    by_cases hcp : (cleanProducts ps).isEmpty
    · simp [calendarGrid, hcp]
    · simp [calendarGrid, hcp, hdr]

/-- Witness for C9 at products = [CandyX, CandyX], range 0..2: two duplicate
names clean to one, and the grid has 1 × 3 rows. -/
theorem c9_calendar_grid_witness :
    ∃ g, calendarGrid ["CandyX", "CandyX"] 0 2 .unavailable = .ok g ∧
      g.length = (cleanProducts ["CandyX", "CandyX"]).length * ((2 : Int) + 1 - 0).toNat ∧
      (∀ p d, g.countP (fun r => (r.product_name == p) && (r.date == d))
          = if p ∈ cleanProducts ["CandyX", "CandyX"] ∧ 0 ≤ d ∧ d ≤ 2 then 1 else 0) :=
  (c9_calendar_grid ["CandyX", "CandyX"] 0 2 .unavailable (by decide) (by norm_num)).1

/-- C6: under every failure behaviour of the enrichment data source — engine
unavailable, query raising, or returning no rows — both resolvers are total
and leave every row at the defaults (0, 0.0, 0.0), and whether
`calendar_grid` succeeds is independent of the data source's behaviour. -/
theorem c6_enrichment_failure_defaults (drows : List (String × Int))
    (prows : List String) (effs : List EffectivenessRow)
    (assocs : List BasketAssociation) (ws : List DiscountWindow)
    (products : List String) (start endD : Int) :
    defaultDiscountFeatures
        = { has_active_discount := 0, discount_percent := 0,
            avg_discount_effectiveness := 0 } ∧
      defaultBasketFeatures
        = { basket_association_count := 0, top_basket_confidence := 0,
            avg_basket_confidence := 0 } ∧
      enrichWithDiscountFeatures drows .unavailable
        = drows.map (fun _ => defaultDiscountFeatures) ∧
      enrichWithDiscountFeatures drows .failing
        = drows.map (fun _ => defaultDiscountFeatures) ∧
      enrichWithDiscountFeatures drows (.available [] effs assocs)
        = drows.map (fun _ => defaultDiscountFeatures) ∧
      enrichWithBasketFeatures prows .unavailable
        = prows.map (fun _ => defaultBasketFeatures) ∧
      enrichWithBasketFeatures prows .failing
        = prows.map (fun _ => defaultBasketFeatures) ∧
      enrichWithBasketFeatures prows (.available ws effs [])
        = prows.map (fun _ => defaultBasketFeatures) ∧
      ((∃ g, calendarGrid products start endD (.available ws effs assocs) = .ok g)
        ↔ (∃ g, calendarGrid products start endD .failing = .ok g)) := by
  refine ⟨rfl, rfl, rfl, rfl, rfl, rfl, rfl, ?_, ?_⟩
  · unfold enrichWithBasketFeatures
    apply List.map_congr_left
    intro p _
    exact basketStats_nil p
  · exact calendarGrid_ok_iff_src products start endD (.available ws effs assocs)

theorem updateAt_getD_ne (hp : List MLFrame) (i j : Nat) (f : MLFrame → MLFrame)
    (hne : i ≠ j) : (updateAt hp i f).getD j default = hp.getD j default := by
  unfold updateAt
  rw [List.getD_eq_getElem?_getD, List.getElem?_set_ne hne, ← List.getD_eq_getElem?_getD]

theorem getD_append_left_frame (l l2 : List MLFrame) (i : Nat) (hi : i < l.length) :
    (l ++ l2).getD i default = l.getD i default := by
  rw [List.getD_eq_getElem?_getD, List.getD_eq_getElem?_getD,
    List.getElem?_append_left hi]

/-- C10: `make_features` never mutates its input frame: after the call —
whether it succeeds or raises on date parsing — every pre-existing heap
frame, in particular the caller's frame at `r`, is exactly as before; all
normalization and feature columns land on the copy made at features.py:409. -/
theorem c10_make_features_pure (h : List MLFrame) (r : Nat) (src : EnrichmentSource)
    (hr : r < h.length) :
    ((makeFeaturesHeap h r src).1).getD r default = h.getD r default ∧
      ∀ i, i < h.length →
        ((makeFeaturesHeap h r src).1).getD i default = h.getD i default := by
  have key : ∀ i, i < h.length →
      ((makeFeaturesHeap h r src).1).getD i default = h.getD i default := by
    intro i hi
    have hic : h.length ≠ i := fun hc => Nat.ne_of_lt hi hc.symm
    unfold makeFeaturesHeap
    dsimp only
    split
    · dsimp only
      rw [updateAt_getD_ne _ _ _ _ hic, getD_append_left_frame h _ i hi]
    · dsimp only
      rw [updateAt_getD_ne _ _ _ _ hic, updateAt_getD_ne _ _ _ _ hic,
        updateAt_getD_ne _ _ _ _ hic, updateAt_getD_ne _ _ _ _ hic,
        updateAt_getD_ne _ _ _ _ hic, getD_append_left_frame h _ i hi]
  exact ⟨key r hr, key⟩

/-- Witness for C10 on a one-frame heap holding a row with an untrimmed
name, a parseable date and numeric units. -/
theorem c10_make_features_pure_witness :
    ((makeFeaturesHeap c10SampleHeap 0 .unavailable).1).getD 0 default
        = c10SampleHeap.getD 0 default ∧
      ∀ i, i < c10SampleHeap.length →
        ((makeFeaturesHeap c10SampleHeap 0 .unavailable).1).getD i default
          = c10SampleHeap.getD i default :=
  c10_make_features_pure c10SampleHeap 0 .unavailable (by decide)
